/-
  Verification of the chat_anon_frontend audio/session pipeline.

  Shallow embedding of:
  * src/utils/audio.ts           — PCM codec (float/int16 conversion, resampling, base64)
  * src/hooks/useAudioRecorder.ts — capture pipeline (batch + streaming buffering)
  * src/hooks/useWebSocket.ts     — session protocol (connect, onclose, message dispatch;
                                    the later variant with the turn_end handler)
  * useAudioPlayer (latest variant: streamEnded-gated drain detection,
    pre-scheduling on the audio clock)

  Conventions:
  * JS numbers (doubles / float32 samples) are modelled as ℚ; every arithmetic
    operation the code performs (multiplication, division, Math.floor, Math.max,
    Math.round, truncation on Int16Array assignment) is exact on the rational
    inputs used in the theorems, so the ℚ model agrees with the JS evaluation
    on those inputs.
  * The audio-output clock (AudioContext.currentTime) is an input parameter
    `now : ℚ` to each operation that reads it.
  * Mutable refs and the zustand store become fields of explicit state records;
    each handler is a state-transition function applying the same writes, in the
    same order, as the source.
-/
import Mathlib

namespace ChatAnon

/-! ## PCM codec — src/utils/audio.ts -/

/-- JS ToInteger conversion on Int16Array element assignment: truncation toward
zero (the values produced by `float32ToInt16` are always in int16 range, so the
subsequent mod-2^16 wrap of the assignment is the identity). -/
def truncQ (q : ℚ) : ℤ := if q < 0 then ⌈q⌉ else ⌊q⌋

/-- The clamp `Math.max(-1, Math.min(1, x))` applied to each sample. -/
def clampSample (x : ℚ) : ℚ := max (-1) (min 1 x)

/-- One sample of `float32ToInt16`:
`s = Math.max(-1, Math.min(1, f)); int16[i] = s < 0 ? s * 0x8000 : s * 0x7fff`. -/
def float32ToInt16Sample (x : ℚ) : ℤ :=
  let s := clampSample x
  if s < 0 then truncQ (s * 0x8000) else truncQ (s * 0x7fff)

/-- `float32ToInt16` over a whole buffer. -/
def float32ToInt16 (a : List ℚ) : List ℤ := a.map float32ToInt16Sample

/-- One sample of `int16ToFloat32`: `float32[i] = int16[i] / 0x8000`. -/
def int16ToFloat32Sample (v : ℤ) : ℚ := (v : ℚ) / 0x8000

/-- `int16ToFloat32` over a whole buffer. -/
def int16ToFloat32 (a : List ℤ) : List ℚ := a.map int16ToFloat32Sample

/-- JS `Math.round` (round half toward +∞). All uses in the source are on
non-negative arguments. -/
def jsRound (q : ℚ) : ℤ := ⌊q + 1 / 2⌋

/-- Reading `audioData[i]` for an integer index; in the loop of `resampleAudio`
the index is provably in bounds for positive rates, so the default never shows
through there. -/
def sampleAt (a : List ℚ) (i : ℤ) : ℚ := a.getD i.toNat 0

/-- `resampleAudio(audioData, fromSampleRate, toSampleRate)`:
identity when the rates are equal, otherwise linear interpolation at the
scaled fractional index, output length `Math.round(len / ratio)`. -/
def resampleAudio (a : List ℚ) (fromSampleRate toSampleRate : ℚ) : List ℚ :=
  if fromSampleRate = toSampleRate then a
  else
    let ratio := fromSampleRate / toSampleRate
    let newLength := (jsRound ((a.length : ℚ) / ratio)).toNat
    (List.range newLength).map (fun (i : ℕ) =>
      let srcIndex : ℚ := (i : ℚ) * ratio
      let srcIndexFloor : ℤ := ⌊srcIndex⌋
      let srcIndexCeil : ℤ := min (srcIndexFloor + 1) ((a.length : ℤ) - 1)
      let fraction : ℚ := srcIndex - (srcIndexFloor : ℚ)
      sampleAt a srcIndexFloor * (1 - fraction) + sampleAt a srcIndexCeil * fraction)

/-! ### Base64 transport encoding

`int16ToBase64` views the Int16Array as little-endian bytes, builds a binary
string (one char per byte) and calls `btoa`; `base64ToInt16` calls `atob`,
rebuilds the byte buffer and views it as an Int16Array.  `atob` throws on a
character outside the base64 alphabet / bad padding, and the `Int16Array`
constructor throws when the byte length is odd; both failures are `none`. -/

def b64Alphabet : List Char :=
  "ABCDEFGHIJKLMNOPQRSTUVWXYZabcdefghijklmnopqrstuvwxyz0123456789+/".toList

/-- Sextet value → base64 character (total; all call sites pass `n < 64`). -/
def b64Char (n : ℕ) : Char := b64Alphabet.getD n 'A'

/-- Base64 character → sextet value; `none` for characters outside the
alphabet (this is where `atob` throws). -/
def b64CharIndex (c : Char) : Option ℕ := b64Alphabet.findIdx? (· = c)

/-- `btoa` on a byte list: 3 bytes → 4 chars, with `=` padding. -/
def b64EncodeBytes : List ℕ → List Char
  | [] => []
  | [b0] => [b64Char (b0 / 4), b64Char (b0 % 4 * 16), '=', '=']
  | [b0, b1] =>
      [b64Char (b0 / 4), b64Char (b0 % 4 * 16 + b1 / 16), b64Char (b1 % 16 * 4), '=']
  | b0 :: b1 :: b2 :: rest =>
      b64Char (b0 / 4) :: b64Char (b0 % 4 * 16 + b1 / 16) ::
        b64Char (b1 % 16 * 4 + b2 / 64) :: b64Char (b2 % 64) :: b64EncodeBytes rest

/-- `atob` on a character list: 4 chars → 3 bytes, honouring `=` padding
(which it accepts only at the very end, as `atob` does; any other occurrence
of `=` falls through to `b64CharIndex '=' = none`). -/
def b64DecodeChars : List Char → Option (List ℕ)
  | [] => some []
  | c0 :: c1 :: c2 :: c3 :: rest =>
      if c2 = '=' ∧ c3 = '=' ∧ rest = [] then do
        let s0 ← b64CharIndex c0
        let s1 ← b64CharIndex c1
        pure [s0 * 4 + s1 / 16]
      else if c3 = '=' ∧ rest = [] then do
        let s0 ← b64CharIndex c0
        let s1 ← b64CharIndex c1
        let s2 ← b64CharIndex c2
        pure [s0 * 4 + s1 / 16, s1 % 16 * 16 + s2 / 4]
      else do
        let s0 ← b64CharIndex c0
        let s1 ← b64CharIndex c1
        let s2 ← b64CharIndex c2
        let s3 ← b64CharIndex c3
        let tail ← b64DecodeChars rest
        pure ([s0 * 4 + s1 / 16, s1 % 16 * 16 + s2 / 4, s2 % 4 * 64 + s3] ++ tail)
  | _ => none

/-- Little-endian byte view of one int16 slot of the `Int16Array` buffer
(two's complement, as `Uint8Array` reads it). -/
def int16ToBytesLE (v : ℤ) : List ℕ :=
  [((v % 65536) % 256).toNat, ((v % 65536) / 256).toNat]

/-- The `Uint8Array` view of the whole `Int16Array` buffer. -/
def int16ArrayToBytes (xs : List ℤ) : List ℕ := (xs.map int16ToBytesLE).flatten

/-- Reading one little-endian uint16 back as a signed int16. -/
def uint16ToInt16 (u : ℕ) : ℤ := if u < 32768 then (u : ℤ) else (u : ℤ) - 65536

/-- The `Int16Array` view of a byte buffer; the constructor throws on an odd
byte length. -/
def bytesToInt16 : List ℕ → Option (List ℤ)
  | [] => some []
  | [_] => none
  | b0 :: b1 :: rest =>
      (bytesToInt16 rest).map (fun t => uint16ToInt16 (b0 + 256 * b1) :: t)

/-- `int16ToBase64(int16Array)`. -/
def int16ToBase64 (xs : List ℤ) : String := String.mk (b64EncodeBytes (int16ArrayToBytes xs))

/-- `base64ToInt16(base64)`; `none` models the thrown exception. -/
def base64ToInt16 (s : String) : Option (List ℤ) :=
  (b64DecodeChars s.toList).bind bytesToInt16

/-- `AUDIO_CONFIG.sampleRate`. -/
def AUDIO_CONFIG_sampleRate : ℚ := 16000

/-! ## Playback scheduler — useAudioPlayer (latest variant:
`streamEndedRef`-gated drain detection, pre-scheduling on the audio clock,
`llm_start` turn-boundary reset). -/

/-- `PipelineStage` from src/utils/websocket.ts. -/
inductive PipelineStage
  | idle | asr | llm | tts | playing
deriving DecidableEq, Repr

/-- The scheduler's mutable refs plus the store fields its handlers write.
`volumeLevel` stands for the pair store.volumeLevel / store.volumeLevelRef,
which the player always writes together.  The analyser node is created and
destroyed together with the audio context, so one `hasContext` flag covers
both. -/
structure PlayerState where
  hasContext : Bool
  isPlaying : Bool
  isPlayingStore : Bool
  lastScheduledEnd : ℚ
  nextStartTime : ℚ
  scheduledSources : List ℚ
  streamEnded : Bool
  checkIntervalActive : Bool
  pipelineStage : PipelineStage
  volumeLevel : ℚ
deriving DecidableEq, Repr

/-- `getAudioContext()`: creates the context (and analyser) if absent and
resets the scheduling refs; resuming a suspended context changes none of the
modelled fields. -/
def getAudioContext (s : PlayerState) : PlayerState :=
  if s.hasContext then s
  else { s with hasContext := true, nextStartTime := 0, lastScheduledEnd := 0,
                scheduledSources := [] }

/-- `checkPlaybackEnded()` at output-clock time `now`: bails out without a
context, bails out while `streamEndedRef` is false, and otherwise performs the
Playing→Idle drain transition once the clock has reached the last scheduled
end time. -/
def checkPlaybackEnded (now : ℚ) (s : PlayerState) : PlayerState :=
  if s.hasContext = false then s
  else if s.streamEnded = false then s
  else if s.isPlaying = true ∧ s.lastScheduledEnd ≤ now then
    { s with scheduledSources := [], isPlaying := false, isPlayingStore := false,
             pipelineStage := .idle, volumeLevel := 0, checkIntervalActive := false }
  else s

/-- The start time `scheduleBuffer` computes:
`Math.max(lastScheduledEndTimeRef.current, audioContext.currentTime)`. -/
def scheduleStartTime (now : ℚ) (s : PlayerState) : ℚ := max s.lastScheduledEnd now

/-- `scheduleBuffer(buffer)` at clock time `now` for a buffer of `duration`
seconds: no-op without a context/analyser; otherwise starts the source at
`scheduleStartTime` and advances `lastScheduledEnd` by the buffer duration.
The source's `onended` callback only splices the finished source out of the
tracking list later; it touches no timing state and is left to the
environment. -/
def scheduleBuffer (now duration : ℚ) (s : PlayerState) : PlayerState :=
  if s.hasContext = false then s
  else
    { s with lastScheduledEnd := scheduleStartTime now s + duration,
             scheduledSources := s.scheduledSources ++ [scheduleStartTime now s] }

/-- `addAudioChunk(base64Data, sampleRate)` at clock time `now`.
`getAudioContext()` runs before the `try`; inside it, a decode failure
(`base64ToInt16` throwing) or a buffer-construction failure
(`createBuffer` throws on zero frames or a non-positive rate) is caught,
logged, and the chunk dropped.  On success the buffer (duration
`samples / sampleRate`) is scheduled and, if the player was idle, playback
tracking starts (volume monitoring reads the analyser asynchronously and is
driven by the environment, so it writes no field here). -/
def addAudioChunk (now : ℚ) (base64Data : String) (sampleRate : ℚ)
    (s : PlayerState) : PlayerState :=
  let s1 := getAudioContext s
  match base64ToInt16 base64Data with
  | none => s1
  | some int16Data =>
    if int16Data.length = 0 ∨ sampleRate ≤ 0 then s1
    else
      let duration : ℚ := (int16Data.length : ℚ) / sampleRate
      let s2 := scheduleBuffer now duration s1
      if s2.isPlaying then s2
      else { s2 with isPlaying := true, isPlayingStore := true, checkIntervalActive := true }

/-- The audio-relevant cases of the player's WebSocket message handler:
`llm_start` resets the scheduling baseline and the stream-ended flag (new
turn), `tts_start` pre-initialises the context, `audio_chunk` schedules,
`audio_end` only records that the stream ended. -/
inductive AudioMsg
  | llm_start
  | tts_start
  | audio_chunk (base64 : String) (rate : ℚ)
  | audio_end
  | otherMsg
deriving DecidableEq, Repr

/-- The player's `handleMessage` at clock time `now`. -/
def handleAudioMessage (now : ℚ) (m : AudioMsg) (s : PlayerState) : PlayerState :=
  match m with
  | .llm_start => { s with lastScheduledEnd := 0, streamEnded := false }
  | .tts_start => getAudioContext s
  | .audio_chunk b64 rate => addAudioChunk now b64 rate s
  | .audio_end => { s with streamEnded := true }
  | .otherMsg => s

/-- Repeated firings of the 100 ms drain-check interval at clock times `ts`. -/
def checkFold (ts : List ℚ) (s : PlayerState) : PlayerState :=
  ts.foldl (fun st t => checkPlaybackEnded t st) s

/-! ## Capture pipeline — src/hooks/useAudioRecorder.ts -/

/-- The recorder's mutable refs plus the store fields it writes.  `graphOpen`
stands for the processor / source node / audio context / media stream, which
are acquired and torn down together. -/
structure RecorderState where
  isRecording : Bool
  chunks : List (List ℤ)
  accumulatedSamples : List (List ℚ)
  volumeLevel : ℚ
  chunkIntervalActive : Bool
  graphOpen : Bool
deriving DecidableEq, Repr

def initialRecorderState : RecorderState :=
  { isRecording := false, chunks := [], accumulatedSamples := [], volumeLevel := 0,
    chunkIntervalActive := false, graphOpen := false }

/-- The successful path of `startRecording()`: graph built, both buffers
cleared, recording flag raised; the chunk-flush interval starts only when an
`onChunk` callback was supplied (`streaming`). -/
def startRecordingState (streaming : Bool) (s : RecorderState) : RecorderState :=
  { s with graphOpen := true, chunks := [], accumulatedSamples := [],
           isRecording := true, chunkIntervalActive := streaming }

/-- One `processor.onaudioprocess` firing with a raw frame sampled at
`hwSampleRate`.  The instantaneous `volume` the code stores
(`normalizeVolume(calculateRMS(frame))`, a floating-point square root) is an
input of the step; every other effect is computed exactly: the frame is
resampled to `AUDIO_CONFIG.sampleRate`, accumulated for the streaming flush,
and its int16 conversion appended to the batch chunk list. -/
def processAudioFrame (hwSampleRate : ℚ) (frame : List ℚ) (volume : ℚ)
    (s : RecorderState) : RecorderState :=
  if s.isRecording = false then s
  else
    let resampled := resampleAudio frame hwSampleRate AUDIO_CONFIG_sampleRate
    { s with volumeLevel := volume,
             accumulatedSamples := s.accumulatedSamples ++ [resampled],
             chunks := s.chunks ++ [float32ToInt16 resampled] }

/-- One firing of the streaming flush interval: merge the accumulated samples,
encode, emit (`onChunk`), clear only the accumulation buffer. -/
def chunkIntervalTick (s : RecorderState) : RecorderState × Option String :=
  if s.accumulatedSamples.isEmpty then (s, none)
  else
    ({ s with accumulatedSamples := [] },
     some (int16ToBase64 (float32ToInt16 s.accumulatedSamples.flatten)))

/-- `stopRecording()`: halt capture, clear the flush interval, tear down the
audio graph and media stream, merge the batch chunks, clear both buffers,
reset the volume, and return the merged buffer base64-encoded. -/
def stopRecording (s : RecorderState) : RecorderState × String :=
  ({ s with isRecording := false, chunkIntervalActive := false, graphOpen := false,
            chunks := [], accumulatedSamples := [], volumeLevel := 0 },
   int16ToBase64 s.chunks.flatten)

/-! ## Session protocol — src/hooks/useWebSocket.ts (later variant, with the
`turn_end` handler). -/

/-- `ConnectionStatus` from the chat store. -/
inductive ConnectionStatus
  | disconnected | connecting | connected | error
deriving DecidableEq, Repr

/-- `WebSocket.readyState` values. -/
inductive WsReadyState
  | connecting | wsOpen | closing | closed
deriving DecidableEq, Repr

/-- The store fields and refs `connect` / the close handler touch.
`wsReady` is store.ws together with its readyState (`none` = no transport);
`transportsOpened` counts `new WebSocket(...)` constructions and
`reconnectCount` counts reconnect timers ever scheduled. -/
structure SessionState where
  wsReady : Option WsReadyState
  apiToken : String
  connectionStatus : ConnectionStatus
  errorMessage : Option String
  pingActive : Bool
  reconnectScheduled : Bool
  reconnectCount : ℕ
  transportsOpened : ℕ
deriving DecidableEq, Repr

/-- `connect(characterName)`: no-op when the current transport is OPEN;
aborts with the user-visible token message when the token is empty (`!token`);
otherwise flips the status to connecting, clears the error and constructs a
fresh transport (readyState CONNECTING). -/
def connect (s : SessionState) : SessionState :=
  if s.wsReady = some .wsOpen then s
  else if s.apiToken = "" then { s with errorMessage := some "请输入 API Token" }
  else { s with connectionStatus := .connecting, errorMessage := none,
                wsReady := some .connecting,
                transportsOpened := s.transportsOpened + 1 }

/-- `newWs.onclose`: sets the status to disconnected, drops the store's
transport, clears the ping interval, and only then reads
`useChatStore.getState().connectionStatus` (zustand's `set` has already
applied synchronously) to decide whether to schedule the 3 s reconnect
timer. -/
def oncloseHandler (s : SessionState) : SessionState :=
  let s1 : SessionState := { s with connectionStatus := .disconnected }
  let s2 : SessionState := { s1 with wsReady := none }
  let s3 : SessionState := { s2 with pingActive := false }
  if s3.connectionStatus = .connected then
    { s3 with reconnectScheduled := true, reconnectCount := s3.reconnectCount + 1 }
  else s3

/-! ### Inbound message dispatch (store side) -/

/-- One chat-log entry; `crypto.randomUUID()` and the `Date` timestamp are
environment values carried unchanged, so they are omitted from the model. -/
inductive Role
  | user | assistant
deriving DecidableEq, Repr

structure ChatMessage where
  role : Role
  content : String
  contentJp : Option String
  emotion : Option String
deriving DecidableEq, Repr

/-- The store fields the dispatch handler writes. -/
structure ChatState where
  connectionStatus : ConnectionStatus
  errorMessage : Option String
  currentCharacter : Option (String × String)
  messages : List ChatMessage
  partialTranscription : String
  pipelineStage : PipelineStage
  isThinking : Bool
  isPlaying : Bool
deriving DecidableEq, Repr

/-- The named store operations the handler calls (chatStore actions). -/
inductive StoreOp
  | setConnectionStatus (st : ConnectionStatus)
  | setErrorMessage (m : Option String)
  | setCurrentCharacter (name displayName : String)
  | addMessage (m : ChatMessage)
  | setPartialTranscription (t : String)
  | setPipelineStage (st : PipelineStage)
  | setIsThinking (b : Bool)
  | setIsPlaying (b : Bool)
  | clearMessages
deriving DecidableEq, Repr

/-- Each store action as defined in chatStore (`addMessage` appends,
`clearMessages` also clears the partial transcription). -/
def applyOp (s : ChatState) : StoreOp → ChatState
  | .setConnectionStatus st => { s with connectionStatus := st }
  | .setErrorMessage m => { s with errorMessage := m }
  | .setCurrentCharacter n d => { s with currentCharacter := some (n, d) }
  | .addMessage m => { s with messages := s.messages ++ [m] }
  | .setPartialTranscription t => { s with partialTranscription := t }
  | .setPipelineStage st => { s with pipelineStage := st }
  | .setIsThinking b => { s with isThinking := b }
  | .setIsPlaying b => { s with isPlaying := b }
  | .clearMessages => { s with messages := [], partialTranscription := "" }

/-- Inbound server messages with the payload fields the handler reads. -/
inductive ServerMsg
  | connected (character displayName : String)
  | disconnected (message : String)
  | thinking
  | asr_start
  | asr_end (text : String)
  | llm_start
  | llm_end
  | tts_start
  | transcription (text : String) (isPartial : Bool)
  | audio_chunk (base64 : String) (rate : ℚ)
  | audio_end
  | response (contentCn contentJp emotion : String)
  | turn_end
  | audio_stream_started
  | agent_listening
  | character_switched (character displayName : String)
  | history_cleared
  | pong
  | errMsg (message : String)
deriving DecidableEq, Repr

/-- The sequence of store calls each case of `handleMessage` makes, in source
order.  (`audio_end` deliberately makes none: playback state resolves via the
player's own drain check; `response` only appends, `turn_end` idles the
pipeline.) -/
def msgOps : ServerMsg → List StoreOp
  | .connected c d =>
      [.setConnectionStatus .connected, .setCurrentCharacter c d, .setErrorMessage none]
  | .disconnected m => [.setConnectionStatus .disconnected, .setErrorMessage (some m)]
  | .thinking => [.setIsThinking true, .setPipelineStage .idle]
  | .asr_start => [.setPipelineStage .asr]
  | .asr_end t =>
      [.setPartialTranscription "",
       .addMessage { role := .user, content := t, contentJp := none, emotion := none }]
  | .llm_start => [.setPipelineStage .llm]
  | .llm_end => []
  | .tts_start => [.setPipelineStage .tts, .setIsThinking false]
  | .transcription t p =>
      if p then [.setPartialTranscription t] else [.setPartialTranscription ""]
  | .audio_chunk _ _ => [.setPipelineStage .playing, .setIsPlaying true]
  | .audio_end => []
  | .response cn jp em =>
      [.setIsThinking false,
       .addMessage { role := .assistant, content := cn, contentJp := some jp,
                     emotion := some em }]
  | .turn_end => [.setIsThinking false, .setPipelineStage .idle]
  | .audio_stream_started => []
  | .agent_listening => [.setPipelineStage .idle, .setIsThinking false]
  | .character_switched c d => [.setCurrentCharacter c d, .clearMessages]
  | .history_cleared => [.clearMessages]
  | .pong => []
  | .errMsg m => [.setErrorMessage (some m), .setIsThinking false, .setPipelineStage .idle]

/-- `handleMessage` for one inbound message. -/
def handleMessage (m : ServerMsg) (s : ChatState) : ChatState :=
  (msgOps m).foldl applyOp s

/-- Dispatching a sequence of inbound messages in arrival order. -/
def processMessages (ms : List ServerMsg) (s : ChatState) : ChatState :=
  ms.foldl (fun st m => handleMessage m st) s

/-- `true` exactly on the store call `setPipelineStage('idle')`. -/
def isSetStageIdle : StoreOp → Bool
  | .setPipelineStage .idle => true
  | _ => false

/-- `true` on any `setPipelineStage` call. -/
def isSetStage : StoreOp → Bool
  | .setPipelineStage _ => true
  | _ => false

/-! ## Theorems -/

/-- Per-sample round-trip error bound: two quantization steps.  (One step is
not enough: the conversion scales non-negative samples by 0x7FFF but the
inverse divides by 0x8000, adding a relative error of `c/32768` on top of the
truncation error.) -/
theorem float_roundtrip_sample_bound (x : ℚ) :
    |int16ToFloat32Sample (float32ToInt16Sample x) - clampSample x| ≤ 1 / 16384 := by
  have hc1 : (-1 : ℚ) ≤ clampSample x := le_max_left _ _
  have hc2 : clampSample x ≤ 1 := max_le (by norm_num) (min_le_left _ _)
  set c := clampSample x with hcdef
  simp only [float32ToInt16Sample, int16ToFloat32Sample, truncQ, ← hcdef]
  by_cases h : c < 0
  · have hlt : c * 0x8000 < 0 := by nlinarith
    rw [if_pos h, if_pos hlt]
    have h1 : c * 0x8000 ≤ (⌈c * 0x8000⌉ : ℚ) := Int.le_ceil _
    have h2 : (⌈c * 0x8000⌉ : ℚ) < c * 0x8000 + 1 := Int.ceil_lt_add_one _
    rw [abs_le]
    constructor <;> [nlinarith; nlinarith]
  · push_neg at h
    have hge : ¬ c * 0x7fff < 0 := by nlinarith
    rw [if_neg (by exact absurd · (not_lt.mpr h)), if_neg hge]
    have h1 : (⌊c * 0x7fff⌋ : ℚ) ≤ c * 0x7fff := Int.floor_le _
    have h2 : c * 0x7fff - 1 < (⌊c * 0x7fff⌋ : ℚ) := Int.sub_one_lt_floor _
    rw [abs_le]
    constructor <;> [nlinarith; nlinarith]

/-- C6 counterexample: for the float32-representable sample `32769/65536`
(≈ 0.50002), the float→int16→float round trip lands `3/65536` away from the
(clamped) input — more than the quantization step `1/32768 = 2/65536` the
claim allows. -/
theorem roundtrip_error_exceeds_quantum :
    ¬ |(int16ToFloat32 (float32ToInt16 [32769 / 65536])).getD 0 0 -
        clampSample (32769 / 65536)| ≤ 1 / 32768 := by
  have h : (int16ToFloat32 (float32ToInt16 [32769 / 65536])).getD 0 0 -
      clampSample (32769 / 65536) = -(3 / 65536) := by
    simp only [int16ToFloat32, float32ToInt16, List.map_cons, List.map_nil,
      List.getD_cons_zero, int16ToFloat32Sample, float32ToInt16Sample, clampSample, truncQ]
    norm_num [min_def, max_def]
  rw [h, abs_neg, abs_of_nonneg (by norm_num)]
  norm_num

/-- C6 (amended): the float→int16→float round trip of every sample array is,
element for element, within TWO quantization steps (`2/32768 = 1/16384`) of
the clamped input; the one-step bound holds for negative samples but not for
positive ones, since positives are scaled up by 0x7FFF yet scaled back down
by 0x8000. -/
theorem float_int16_roundtrip_error_bound (xs : List ℚ) :
    List.Forall₂ (fun y x => |y - clampSample x| ≤ 1 / 16384)
      (int16ToFloat32 (float32ToInt16 xs)) xs := by
  induction xs with
  | nil => simp [int16ToFloat32, float32ToInt16]
  | cons a l ih =>
    simp only [int16ToFloat32, float32ToInt16, List.map_cons] at *
    exact List.Forall₂.cons (float_roundtrip_sample_bound a) ih

/-- C9: `resampleAudio` is the identity when the rates are equal (any rate),
and for distinct rates returns `round(len/ratio)` samples, the `i`-th being
the linear interpolation between the two nearest input samples at the scaled
fractional index `i·ratio` with the upper index clamped to the last sample;
for positive rates both interpolation indices are in bounds. -/
theorem resampleAudio_spec (a : List ℚ) (r r1 r2 : ℚ) :
    resampleAudio a r r = a ∧
    (r1 ≠ r2 → 0 < r1 → 0 < r2 →
      (resampleAudio a r1 r2).length = (jsRound ((a.length : ℚ) / (r1 / r2))).toNat ∧
      ∀ i, ∀ hi : i < (resampleAudio a r1 r2).length,
        (resampleAudio a r1 r2).get ⟨i, hi⟩ =
          sampleAt a ⌊(i : ℚ) * (r1 / r2)⌋
            + (sampleAt a (min (⌊(i : ℚ) * (r1 / r2)⌋ + 1) ((a.length : ℤ) - 1))
                - sampleAt a ⌊(i : ℚ) * (r1 / r2)⌋)
              * ((i : ℚ) * (r1 / r2) - (⌊(i : ℚ) * (r1 / r2)⌋ : ℚ))) ∧
    (r1 ≠ r2 → 0 < r1 → 0 < r2 →
      ∀ i, i < (resampleAudio a r1 r2).length →
        0 ≤ ⌊(i : ℚ) * (r1 / r2)⌋ ∧ ⌊(i : ℚ) * (r1 / r2)⌋ < (a.length : ℤ)) := by
  refine ⟨by simp [resampleAudio], fun hne _ _ => ⟨?_, ?_⟩, fun hne hr1 hr2 i hi => ?_⟩
  · simp only [resampleAudio, if_neg hne, List.length_map, List.length_range]
  · intro i hi
    simp only [resampleAudio, if_neg hne, List.get_eq_getElem, List.getElem_map,
      List.getElem_range]
    ring
  · have hlen : (resampleAudio a r1 r2).length
        = (jsRound ((a.length : ℚ) / (r1 / r2))).toNat := by
      simp only [resampleAudio, if_neg hne, List.length_map, List.length_range]
    rw [hlen] at hi
    have hratio : 0 < r1 / r2 := div_pos hr1 hr2
    have hfloor0 : 0 ≤ ⌊(i : ℚ) * (r1 / r2)⌋ :=
      Int.floor_nonneg.mpr (mul_nonneg (by positivity) (le_of_lt hratio))
    refine ⟨hfloor0, ?_⟩
    -- i < toNat ⌊len/ratio + 1/2⌋ gives (i+1 : ℚ) ≤ len/ratio + 1/2,
    -- hence i·ratio ≤ len − ratio/2 < len.
    have h1 : ((i : ℤ) + 1) ≤ ⌊(a.length : ℚ) / (r1 / r2) + 1 / 2⌋ := by
      simp only [jsRound] at hi; omega
    have h2 : ((i : ℚ) + 1) ≤ (a.length : ℚ) / (r1 / r2) + 1 / 2 := by
      have h2' := Int.le_floor.mp h1
      push_cast at h2' ⊢
      linarith
    have hmul := mul_le_mul_of_nonneg_right h2 (le_of_lt hratio)
    have e1 : ((i : ℚ) + 1) * (r1 / r2) = (i : ℚ) * (r1 / r2) + r1 / r2 := by ring
    have e2 : ((a.length : ℚ) / (r1 / r2) + 1 / 2) * (r1 / r2)
        = (a.length : ℚ) + r1 / r2 / 2 := by
      rw [add_mul, div_mul_cancel₀ _ (ne_of_gt hratio)]; ring
    have h3 : (i : ℚ) * (r1 / r2) < (a.length : ℚ) := by
      rw [e1, e2] at hmul; linarith
    exact Int.floor_lt.mpr (by exact_mod_cast h3)

/-- Witness for `resampleAudio_spec` at concrete inputs (identity at rate 7;
downsampling `[5, 9]` from rate 4 to rate 2 yields one sample, namely the
first input sample, in bounds). -/
theorem resampleAudio_spec_witness :
    resampleAudio [(5 : ℚ), 9] 7 7 = [5, 9] ∧
    (resampleAudio [(5 : ℚ), 9] 4 2).length
      = (jsRound ((([(5 : ℚ), 9].length : ℕ) : ℚ) / (4 / 2))).toNat ∧
    (0 ≤ ⌊((0 : ℕ) : ℚ) * ((4 : ℚ) / 2)⌋ ∧
      ⌊((0 : ℕ) : ℚ) * ((4 : ℚ) / 2)⌋ < (([(5 : ℚ), 9].length : ℕ) : ℤ)) := by
  refine ⟨(resampleAudio_spec [5, 9] 7 4 2).1,
    ((resampleAudio_spec [5, 9] 7 4 2).2.1 (by norm_num) (by norm_num) (by norm_num)).1, ?_⟩
  refine (resampleAudio_spec [5, 9] 7 4 2).2.2 (by norm_num) (by norm_num) (by norm_num) 0 ?_
  rw [((resampleAudio_spec [5, 9] 7 4 2).2.1 (by norm_num) (by norm_num) (by norm_num)).1]
  norm_num [jsRound]

/-- Decoding inverts the alphabet on sextet values (checked on all 64). -/
theorem b64CharIndex_b64Char_fin :
    ∀ n : Fin 64, b64CharIndex (b64Char (n : ℕ)) = some (n : ℕ) := by decide

theorem b64CharIndex_b64Char (n : ℕ) (h : n < 64) : b64CharIndex (b64Char n) = some n :=
  b64CharIndex_b64Char_fin ⟨n, h⟩

/-- No alphabet character is the padding character. -/
theorem b64Char_ne_pad_fin : ∀ n : Fin 64, b64Char (n : ℕ) ≠ '=' := by decide

theorem b64Char_ne_pad (n : ℕ) (h : n < 64) : b64Char n ≠ '=' :=
  b64Char_ne_pad_fin ⟨n, h⟩

/-- `atob` inverts `btoa` on every byte list. -/
theorem b64DecodeChars_encode (bs : List ℕ) (h : ∀ b ∈ bs, b < 256) :
    b64DecodeChars (b64EncodeBytes bs) = some bs := by
  induction bs using b64EncodeBytes.induct with
  | case1 => rfl
  | case2 b0 =>
    have h0 : b0 < 256 := h b0 (by simp)
    simp only [b64EncodeBytes, b64DecodeChars]
    rw [if_pos (by exact ⟨trivial, trivial, trivial⟩),
      b64CharIndex_b64Char _ (by omega), b64CharIndex_b64Char _ (by omega)]
    simp only [Option.bind_eq_bind, Option.some_bind, Option.some.injEq]
    have e : b0 / 4 * 4 + b0 % 4 * 16 / 16 = b0 := by omega
    rw [e]
    rfl
  | case3 b0 b1 =>
    have h0 : b0 < 256 := h b0 (by simp)
    have h1 : b1 < 256 := h b1 (by simp)
    simp only [b64EncodeBytes, b64DecodeChars]
    rw [if_neg (fun hc => b64Char_ne_pad _ (by omega) hc.1),
      if_pos (by exact ⟨trivial, trivial⟩),
      b64CharIndex_b64Char _ (by omega), b64CharIndex_b64Char _ (by omega),
      b64CharIndex_b64Char _ (by omega)]
    simp only [Option.bind_eq_bind, Option.some_bind, Option.some.injEq]
    have e0 : b0 / 4 * 4 + (b0 % 4 * 16 + b1 / 16) / 16 = b0 := by omega
    have e1 : (b0 % 4 * 16 + b1 / 16) % 16 * 16 + b1 % 16 * 4 / 4 = b1 := by omega
    rw [e0, e1]
    rfl
  | case4 b0 b1 b2 rest ih =>
    have h0 : b0 < 256 := h b0 (by simp)
    have h1 : b1 < 256 := h b1 (by simp)
    have h2 : b2 < 256 := h b2 (by simp)
    have ihr := ih (fun b hb => h b (by simp [hb]))
    simp only [b64EncodeBytes, b64DecodeChars]
    rw [if_neg (fun hc => b64Char_ne_pad _ (by omega) hc.1),
      if_neg (fun hc => b64Char_ne_pad _ (by omega) hc.1),
      b64CharIndex_b64Char _ (by omega), b64CharIndex_b64Char _ (by omega),
      b64CharIndex_b64Char _ (by omega), b64CharIndex_b64Char _ (by omega), ihr]
    simp only [Option.bind_eq_bind, Option.some_bind, Option.some.injEq]
    have e0 : b0 / 4 * 4 + (b0 % 4 * 16 + b1 / 16) / 16 = b0 := by omega
    have e1 : (b0 % 4 * 16 + b1 / 16) % 16 * 16 + (b1 % 16 * 4 + b2 / 64) / 4 = b1 := by
      omega
    have e2 : (b1 % 16 * 4 + b2 / 64) % 4 * 64 + b2 % 64 = b2 := by omega
    rw [e0, e1, e2]
    rfl

/-- The byte view of an int16 slot consists of bytes. -/
theorem int16ToBytesLE_lt (v : ℤ) : ∀ b ∈ int16ToBytesLE v, b < 256 := by
  intro b hb
  simp only [int16ToBytesLE, List.mem_cons, List.not_mem_nil, or_false] at hb
  rcases hb with h | h <;> subst h <;> omega

theorem int16ArrayToBytes_lt (xs : List ℤ) : ∀ b ∈ int16ArrayToBytes xs, b < 256 := by
  intro b hb
  simp only [int16ArrayToBytes, List.mem_flatten, List.mem_map] at hb
  obtain ⟨l, ⟨v, _, rfl⟩, hbl⟩ := hb
  exact int16ToBytesLE_lt v b hbl

/-- Reassembling the two little-endian bytes recovers the int16 value. -/
theorem uint16_roundtrip (v : ℤ) (h1 : -32768 ≤ v) (h2 : v < 32768) :
    uint16ToInt16 (((v % 65536) % 256).toNat + 256 * ((v % 65536) / 256).toNat) = v := by
  unfold uint16ToInt16
  split <;> omega

/-- The `Int16Array` view inverts the `Uint8Array` view. -/
theorem bytesToInt16_int16ArrayToBytes (xs : List ℤ)
    (h : ∀ v ∈ xs, -32768 ≤ v ∧ v < 32768) :
    bytesToInt16 (int16ArrayToBytes xs) = some xs := by
  induction xs with
  | nil => rfl
  | cons v l ih =>
    obtain ⟨hv1, hv2⟩ := h v (by simp)
    have ih' := ih (fun w hw => h w (by simp [hw]))
    have step : bytesToInt16 (int16ArrayToBytes (v :: l))
        = (bytesToInt16 (int16ArrayToBytes l)).map
            (fun t => uint16ToInt16 (((v % 65536) % 256).toNat
              + 256 * ((v % 65536) / 256).toNat) :: t) := rfl
    rw [step, ih', uint16_roundtrip v hv1 hv2]
    rfl

/-- Shared round-trip fact used below. -/
theorem base64_int16_decode_encode (xs : List ℤ)
    (h : ∀ v ∈ xs, -32768 ≤ v ∧ v < 32768) :
    base64ToInt16 (int16ToBase64 xs) = some xs := by
  unfold base64ToInt16 int16ToBase64
  have htl : (String.mk (b64EncodeBytes (int16ArrayToBytes xs))).toList
      = b64EncodeBytes (int16ArrayToBytes xs) := rfl
  rw [htl, b64DecodeChars_encode _ (int16ArrayToBytes_lt xs)]
  simpa using bytesToInt16_int16ArrayToBytes xs h

/-- C10: the transport encoding round-trips: for every int16 sample list,
`base64ToInt16 (int16ToBase64 x) = x`. -/
theorem base64_int16_roundtrip (xs : List ℤ) (h : ∀ v ∈ xs, -32768 ≤ v ∧ v < 32768) :
    base64ToInt16 (int16ToBase64 xs) = some xs :=
  base64_int16_decode_encode xs h

/-- Witness for `base64_int16_roundtrip` on a concrete buffer covering zero,
positive, negative and both extreme int16 values. -/
theorem base64_int16_roundtrip_witness :
    (∀ v ∈ [(0 : ℤ), 1, -1, 32767, -32768, 12345], -32768 ≤ v ∧ v < 32768) ∧
    base64ToInt16 (int16ToBase64 [(0 : ℤ), 1, -1, 32767, -32768, 12345])
      = some [0, 1, -1, 32767, -32768, 12345] :=
  ⟨by decide, base64_int16_roundtrip _ (by decide)⟩

/-- The drain check is the identity while the stream-ended flag is down. -/
theorem checkPlaybackEnded_of_not_streamEnded (now : ℚ) (s : PlayerState)
    (h : s.streamEnded = false) : checkPlaybackEnded now s = s := by
  unfold checkPlaybackEnded
  rw [h]
  simp

/-- C1: the Playing→Idle drain transition (clear isPlaying, stage idle, zero
the loudness signal, drop the tracked sources) happens only when BOTH the
stream-ended flag is set AND the output clock has reached the last scheduled
end time; it does happen then; `audio_end` is what raises the flag; and while
the flag is down, arbitrarily many firings of the periodic check at arbitrary
clock times leave the state untouched. -/
theorem drain_transition_spec (now : ℚ) (s : PlayerState) :
    (s.streamEnded = false → checkPlaybackEnded now s = s) ∧
    ((checkPlaybackEnded now s).isPlaying = false ∧ s.isPlaying = true →
      s.streamEnded = true ∧ s.lastScheduledEnd ≤ now) ∧
    (s.hasContext = true → s.streamEnded = true → s.isPlaying = true →
      s.lastScheduledEnd ≤ now →
      (checkPlaybackEnded now s).isPlaying = false ∧
      (checkPlaybackEnded now s).isPlayingStore = false ∧
      (checkPlaybackEnded now s).pipelineStage = PipelineStage.idle ∧
      (checkPlaybackEnded now s).volumeLevel = 0 ∧
      (checkPlaybackEnded now s).scheduledSources = []) ∧
    ((handleAudioMessage now AudioMsg.audio_end s).streamEnded = true) ∧
    (∀ ts : List ℚ, s.streamEnded = false → checkFold ts s = s) := by
  refine ⟨checkPlaybackEnded_of_not_streamEnded now s, ?_, ?_, rfl, ?_⟩
  · rintro ⟨ha, hb⟩
    unfold checkPlaybackEnded at ha
    split_ifs at ha with h1 h2 h3
    · rw [hb] at ha; cases ha
    · rw [hb] at ha; cases ha
    · exact ⟨by simpa using h2, h3.2⟩
    · rw [hb] at ha; cases ha
  · intro hctx hse hip hle
    simp [checkPlaybackEnded, hctx, hse, hip, hle]
  · intro ts h
    induction ts with
    | nil => rfl
    | cons t ts ih =>
      show checkFold ts (checkPlaybackEnded t s) = s
      rw [checkPlaybackEnded_of_not_streamEnded t s h]
      exact ih

/-- Witness for `drain_transition_spec`: withholding `audio_end` leaves the
state untouched even at a late clock time, while with the flag set and the
clock past the end time the stage drops to idle. -/
theorem drain_transition_spec_witness :
    checkPlaybackEnded 500 ⟨true, true, true, 3, 0, [0], false, true, .playing, 1/2⟩
      = ⟨true, true, true, 3, 0, [0], false, true, .playing, 1/2⟩ ∧
    (checkPlaybackEnded 5 ⟨true, true, true, 3, 0, [0], true, true, .playing, 1/2⟩).pipelineStage
      = PipelineStage.idle ∧
    (checkPlaybackEnded 5 ⟨true, true, true, 3, 0, [0], true, true, .playing, 1/2⟩).volumeLevel
      = 0 :=
  ⟨(drain_transition_spec 500 _).1 rfl,
   ((drain_transition_spec 5 _).2.2.1 rfl rfl rfl (by norm_num)).2.2.1,
   ((drain_transition_spec 5 _).2.2.1 rfl rfl rfl (by norm_num)).2.2.2.1⟩

/-- C3: `scheduleBuffer` starts the new segment at
`max(lastScheduledEnd, now)` and advances `lastScheduledEnd` by exactly the
buffer duration; a chunk arriving before the previous end time starts exactly
at that end time (gapless), a late chunk starts at the current clock time, and
any next chunk arriving before the new end time starts exactly at the new end
time. -/
theorem scheduleBuffer_gapless (now duration : ℚ) (s : PlayerState)
    (hctx : s.hasContext = true) :
    (scheduleBuffer now duration s).lastScheduledEnd
      = scheduleStartTime now s + duration ∧
    scheduleStartTime now s = max s.lastScheduledEnd now ∧
    (scheduleBuffer now duration s).scheduledSources
      = s.scheduledSources ++ [scheduleStartTime now s] ∧
    (now ≤ s.lastScheduledEnd → scheduleStartTime now s = s.lastScheduledEnd) ∧
    (s.lastScheduledEnd ≤ now → scheduleStartTime now s = now) ∧
    (∀ now2, now2 ≤ (scheduleBuffer now duration s).lastScheduledEnd →
      scheduleStartTime now2 (scheduleBuffer now duration s)
        = (scheduleBuffer now duration s).lastScheduledEnd) := by
  have hne : ¬ s.hasContext = false := by rw [hctx]; simp
  refine ⟨by simp [scheduleBuffer, hne], rfl, by simp [scheduleBuffer, hne],
    fun h => max_eq_left h, fun h => max_eq_right h, fun now2 h2 => ?_⟩
  simp only [scheduleBuffer, hne, if_false, scheduleStartTime] at h2 ⊢
  exact max_eq_left h2

/-- Witness for `scheduleBuffer_gapless`: a 2-second buffer scheduled at clock
time 1 against a previous end time of 4 starts at 4 and pushes the end to 6. -/
theorem scheduleBuffer_gapless_witness :
    (scheduleBuffer 1 2 ⟨true, true, true, 4, 0, [], true, true, .playing, 0⟩).lastScheduledEnd
      = scheduleStartTime 1 ⟨true, true, true, 4, 0, [], true, true, .playing, 0⟩ + 2 ∧
    scheduleStartTime 1 ⟨true, true, true, 4, 0, [], true, true, .playing, 0⟩ = 4 :=
  ⟨(scheduleBuffer_gapless 1 2 _ rfl).1,
   ((scheduleBuffer_gapless 1 2 _ rfl).2.2.2.1 (by norm_num))⟩

/-- C8: when the chunk payload does not decode (invalid base64 or an odd byte
count), `addAudioChunk` leaves the whole scheduler state unchanged —
`lastScheduledEnd`, the tracked sources, both isPlaying flags, the stage and
the loudness value — provided the audio context exists (it always does while
previously scheduled segments are playing). -/
theorem addAudioChunk_decode_error_atomic (now : ℚ) (b64 : String) (rate : ℚ)
    (s : PlayerState) (hctx : s.hasContext = true) (hdec : base64ToInt16 b64 = none) :
    addAudioChunk now b64 rate s = s := by
  unfold addAudioChunk getAudioContext
  rw [hctx, hdec]
  simp

/-- Witness for `addAudioChunk_decode_error_atomic`: `"AA=="` decodes to a
single byte, on which the `Int16Array` view fails, so the playing state
survives unchanged. -/
theorem addAudioChunk_decode_error_atomic_witness :
    base64ToInt16 "AA==" = none ∧
    addAudioChunk 7 "AA==" 16000 ⟨true, true, true, 3, 0, [1], false, true, .playing, 1/2⟩
      = ⟨true, true, true, 3, 0, [1], false, true, .playing, 1/2⟩ :=
  ⟨by decide, addAudioChunk_decode_error_atomic 7 "AA==" 16000 _ rfl (by decide)⟩

/-- C2 (code evaluation): the close handler overwrites the connection status
with `disconnected` BEFORE re-reading it for the reconnect decision, so the
`status === 'connected'` branch is unreachable: no execution schedules a
reconnect — also not when the status just before the close was `connected`,
the case the code's own comment ("Auto reconnect only if was previously
connected") intends to handle. -/
theorem onclose_schedules_no_reconnect :
    (∀ s : SessionState,
      (oncloseHandler s).reconnectCount = s.reconnectCount ∧
      (oncloseHandler s).reconnectScheduled = s.reconnectScheduled ∧
      (oncloseHandler s).connectionStatus = ConnectionStatus.disconnected) ∧
    (oncloseHandler ⟨some WsReadyState.wsOpen, "token", ConnectionStatus.connected,
        none, true, false, 0, 1⟩).reconnectCount = 0 := by
  constructor
  · intro s
    simp [oncloseHandler]
  · rfl

/-- C7: `connect` is a no-op when the current transport is OPEN, and with a
missing token it records the user-visible message and aborts before any
transport, status or timer change. -/
theorem connect_guard_spec (s : SessionState) :
    (s.wsReady = some WsReadyState.wsOpen → connect s = s) ∧
    (s.wsReady ≠ some WsReadyState.wsOpen → s.apiToken = "" →
      (connect s).errorMessage = some "请输入 API Token" ∧
      (connect s).connectionStatus = s.connectionStatus ∧
      (connect s).wsReady = s.wsReady ∧
      (connect s).transportsOpened = s.transportsOpened ∧
      (connect s).pingActive = s.pingActive ∧
      (connect s).reconnectScheduled = s.reconnectScheduled ∧
      (connect s).reconnectCount = s.reconnectCount) := by
  constructor
  · intro h
    simp [connect, h]
  · intro h1 h2
    simp [connect, h1, h2]

/-- Witness for `connect_guard_spec`: a no-op on an OPEN transport, and the
message-only effect of an empty token. -/
theorem connect_guard_spec_witness :
    connect ⟨some WsReadyState.wsOpen, "t", ConnectionStatus.connected, none, true, false, 0, 1⟩
      = ⟨some WsReadyState.wsOpen, "t", ConnectionStatus.connected, none, true, false, 0, 1⟩ ∧
    (connect ⟨none, "", ConnectionStatus.disconnected, none, false, false, 0, 0⟩).errorMessage
      = some "请输入 API Token" ∧
    (connect ⟨none, "", ConnectionStatus.disconnected, none, false, false, 0, 0⟩).transportsOpened
      = 0 :=
  ⟨(connect_guard_spec _).1 rfl,
   ((connect_guard_spec _).2 (by simp) rfl).1,
   ((connect_guard_spec _).2 (by simp) rfl).2.2.2.1⟩

/-- C4: three `response` messages followed by one `turn_end` append exactly
three assistant messages (with content, secondary-language text and emotion
tag) and leave the stage idle; across the whole trace `setPipelineStage(idle)`
is called exactly once; no `response` case ever calls `setPipelineStage`; the
one idle transition comes from the `turn_end` case. -/
theorem response_turn_end_dispatch (s : ChatState)
    (c1 c2 c3 j1 j2 j3 e1 e2 e3 : String) :
    (processMessages [ServerMsg.response c1 j1 e1, ServerMsg.response c2 j2 e2,
        ServerMsg.response c3 j3 e3, ServerMsg.turn_end] s).messages
      = s.messages ++
        [{ role := Role.assistant, content := c1, contentJp := some j1, emotion := some e1 },
         { role := Role.assistant, content := c2, contentJp := some j2, emotion := some e2 },
         { role := Role.assistant, content := c3, contentJp := some j3, emotion := some e3 }] ∧
    (processMessages [ServerMsg.response c1 j1 e1, ServerMsg.response c2 j2 e2,
        ServerMsg.response c3 j3 e3, ServerMsg.turn_end] s).pipelineStage
      = PipelineStage.idle ∧
    ((([ServerMsg.response c1 j1 e1, ServerMsg.response c2 j2 e2,
        ServerMsg.response c3 j3 e3, ServerMsg.turn_end].map msgOps).flatten).filter
          isSetStageIdle).length = 1 ∧
    (∀ c j e, (msgOps (ServerMsg.response c j e)).filter isSetStage = []) ∧
    (msgOps ServerMsg.turn_end).filter isSetStageIdle
      = [StoreOp.setPipelineStage PipelineStage.idle] := by
  refine ⟨?_, ?_, ?_, ?_, ?_⟩ <;>
    simp [processMessages, handleMessage, msgOps, applyOp, isSetStageIdle, isSetStage,
      List.filter, List.append_assoc]

/-- Converted samples always fit in int16 (the clamp guarantees it). -/
theorem float32ToInt16Sample_range (x : ℚ) :
    -32768 ≤ float32ToInt16Sample x ∧ float32ToInt16Sample x < 32768 := by
  have hc1 : (-1 : ℚ) ≤ clampSample x := le_max_left _ _
  have hc2 : clampSample x ≤ 1 := max_le (by norm_num) (min_le_left _ _)
  unfold float32ToInt16Sample truncQ
  set c := clampSample x
  by_cases h : c < 0
  · rw [if_pos h, if_pos (by nlinarith)]
    constructor
    · have hlb : (-32768 : ℚ) ≤ c * 0x8000 := by nlinarith
      have := Int.ceil_le_ceil hlb
      simpa using this
    · have hub : c * 0x8000 ≤ 0 := by nlinarith
      have : ⌈c * 0x8000⌉ ≤ (0 : ℤ) := Int.ceil_le.mpr (by exact_mod_cast hub)
      omega
  · push_neg at h
    rw [if_neg (not_lt.mpr h), if_neg (not_lt.mpr (by nlinarith))]
    constructor
    · have : (0 : ℤ) ≤ ⌊c * 0x7fff⌋ := Int.floor_nonneg.mpr (by nlinarith)
      omega
    · have hub : c * 0x7fff ≤ 32767 := by nlinarith
      have := Int.floor_le_floor hub
      have h32 : ⌊(32767 : ℚ)⌋ = 32767 := by norm_num
      omega

theorem float32ToInt16_range (xs : List ℚ) :
    ∀ v ∈ float32ToInt16 xs, -32768 ≤ v ∧ v < 32768 := by
  intro v hv
  simp only [float32ToInt16, List.mem_map] at hv
  obtain ⟨x, _, rfl⟩ := hv
  exact float32ToInt16Sample_range x

/-- C5 counterexample: in a streaming session (`onChunk` supplied), a frame
captured and already flushed by the interval is STILL returned by
`stopRecording`, because `onaudioprocess` pushes every frame into the batch
chunk list as well and the flush clears only the accumulation buffer, so the
returned buffer of a streaming-only session is not empty. -/
theorem stopRecording_streaming_returns_buffered :
    (chunkIntervalTick (processAudioFrame 16000 [1 / 2] (1 / 4)
        (startRecordingState true initialRecorderState))).2 ≠ none ∧
    base64ToInt16 (stopRecording (chunkIntervalTick (processAudioFrame 16000 [1 / 2] (1 / 4)
        (startRecordingState true initialRecorderState))).1).2 = some [16383] ∧
    (stopRecording (chunkIntervalTick (processAudioFrame 16000 [1 / 2] (1 / 4)
        (startRecordingState true initialRecorderState))).1).2 ≠ int16ToBase64 [] := by
  have hf : float32ToInt16 [(2 : ℚ)⁻¹] = [16383] := by
    norm_num [float32ToInt16, float32ToInt16Sample, clampSample, truncQ, max_def, min_def]
  have hs1 : processAudioFrame 16000 [1 / 2] (1 / 4)
      (startRecordingState true initialRecorderState)
      = ⟨true, [[16383]], [[1 / 2]], 1 / 4, true, true⟩ := by
    simp [processAudioFrame, startRecordingState, initialRecorderState, resampleAudio,
      AUDIO_CONFIG_sampleRate, hf]
  rw [hs1]
  refine ⟨by simp [chunkIntervalTick], ?_, ?_⟩
  · have hstop : (stopRecording (chunkIntervalTick
        ⟨true, [[16383]], [[1 / 2]], 1 / 4, true, true⟩).1).2
        = int16ToBase64 [16383] := by
      simp [chunkIntervalTick, stopRecording]
    rw [hstop]
    decide
  · have hstop : (stopRecording (chunkIntervalTick
        ⟨true, [[16383]], [[1 / 2]], 1 / 4, true, true⟩).1).2
        = int16ToBase64 [16383] := by
      simp [chunkIntervalTick, stopRecording]
    rw [hstop]
    decide

/-- C5 (amended): `stopRecording` halts capture, tears the graph down, resets
the volume to 0 and returns the base64 encoding of ALL PCM frames buffered
since `startRecording` — in streaming mode as well, since the interval flush
clears only the accumulation buffer, never the batch chunk list (it is empty
only if no frame was captured).  In particular a three-frame session, in
either mode, decodes back to exactly the sum of the three frames'
post-resampling sample counts. -/
theorem stopRecording_spec :
    (∀ s : RecorderState,
      (stopRecording s).1.isRecording = false ∧
      (stopRecording s).1.volumeLevel = 0 ∧
      (stopRecording s).1.graphOpen = false ∧
      (stopRecording s).1.chunks = [] ∧
      (stopRecording s).1.accumulatedSamples = [] ∧
      (stopRecording s).2 = int16ToBase64 s.chunks.flatten) ∧
    (∀ (streaming : Bool) (hw : ℚ) (f1 f2 f3 : List ℚ) (v1 v2 v3 : ℚ),
      (base64ToInt16 (stopRecording (processAudioFrame hw f3 v3 (processAudioFrame hw f2 v2
          (processAudioFrame hw f1 v1
            (startRecordingState streaming initialRecorderState))))).2).map List.length
        = some ((resampleAudio f1 hw AUDIO_CONFIG_sampleRate).length
            + ((resampleAudio f2 hw AUDIO_CONFIG_sampleRate).length
              + (resampleAudio f3 hw AUDIO_CONFIG_sampleRate).length))) := by
  constructor
  · intro s
    refine ⟨rfl, rfl, rfl, rfl, rfl, rfl⟩
  · intro streaming hw f1 f2 f3 v1 v2 v3
    have hchunks : (processAudioFrame hw f3 v3 (processAudioFrame hw f2 v2
        (processAudioFrame hw f1 v1
          (startRecordingState streaming initialRecorderState)))).chunks
        = [float32ToInt16 (resampleAudio f1 hw AUDIO_CONFIG_sampleRate),
           float32ToInt16 (resampleAudio f2 hw AUDIO_CONFIG_sampleRate),
           float32ToInt16 (resampleAudio f3 hw AUDIO_CONFIG_sampleRate)] := by
      simp [processAudioFrame, startRecordingState, initialRecorderState]
    have hout : (stopRecording (processAudioFrame hw f3 v3 (processAudioFrame hw f2 v2
        (processAudioFrame hw f1 v1
          (startRecordingState streaming initialRecorderState))))).2
        = int16ToBase64 ((float32ToInt16 (resampleAudio f1 hw AUDIO_CONFIG_sampleRate)
            ++ (float32ToInt16 (resampleAudio f2 hw AUDIO_CONFIG_sampleRate)
              ++ float32ToInt16 (resampleAudio f3 hw AUDIO_CONFIG_sampleRate)))) := by
      show int16ToBase64 _ = _
      rw [hchunks]
      simp
    rw [hout]
    have hrange : ∀ v ∈ float32ToInt16 (resampleAudio f1 hw AUDIO_CONFIG_sampleRate)
        ++ (float32ToInt16 (resampleAudio f2 hw AUDIO_CONFIG_sampleRate)
          ++ float32ToInt16 (resampleAudio f3 hw AUDIO_CONFIG_sampleRate)),
        -32768 ≤ v ∧ v < 32768 := by
      intro v hv
      simp only [List.mem_append] at hv
      rcases hv with h | h | h <;> exact float32ToInt16_range _ v h
    rw [base64_int16_decode_encode _ hrange]
    simp [float32ToInt16]

end ChatAnon
